import Mathlib

/-!
Verification development for `user-startup-py` (`usp.py`, version 0.1.0).

The program manages per-user autostart entries: it generates a platform-native
startup configuration file for a one-line shell command (`add`), enumerates the
generated files (`list`), and deletes one by id (`remove`).

Shallow embedding conventions:
- Python `str` is Lean `String` (a structure over `List Char` in this toolchain);
  the helper primitives below (`pyStripList`, `splitFirst`, `dropPre`, ...)
  mirror the exact Python string methods the source uses (`str.strip`,
  `str.split(maxsplit=1)`, `str.removeprefix`, ...), restricted to ASCII
  whitespace (space, tab, CR, LF), which is all the program ever produces.
- `platform.system()` is passed in as the `sys : String` argument (its real
  values are `"Linux"`, `"Windows"`, `"Darwin"`); `Path.home()` is passed in as
  `home : String`, and paths are rendered as `/`-joined strings.
- The filesystem is a list of file entries (path, contents, readable flag);
  directory enumeration order is the list order, matching the unspecified order
  of `Path.glob` in the source.
- Fallible code returns `Except String`, carrying the Python exception message;
  an `Except.error` result models a raised exception, in which case the
  operation returns no new filesystem (nothing was written).
-/

namespace Usp

/-! ### Python string primitives -/

/-- Boolean test that `pre` is a prefix of `s` (`str.startswith`). -/
def listPrefixOf : List Char → List Char → Bool
  | [], _ => true
  | _ :: _, [] => false
  | a :: as, b :: bs => a == b && listPrefixOf as bs

/-- Boolean test that character `c` occurs in `l` (`c in s` for Python strings). -/
def containsChar (c : Char) : List Char → Bool
  | [] => false
  | a :: as => a == c || containsChar c as

/-- Split a character list at every occurrence of `sep`; the accumulator holds
the current (reversed) segment. -/
def splitOnCharAux (sep : Char) : List Char → List Char → List (List Char)
  | [], acc => [acc.reverse]
  | c :: cs, acc =>
    if c = sep then acc.reverse :: splitOnCharAux sep cs []
    else splitOnCharAux sep cs (c :: acc)

/-- Split a character list at every occurrence of `sep` (Python `str.split(sep)`). -/
def splitOnChar (sep : Char) (cs : List Char) : List (List Char) :=
  splitOnCharAux sep cs []

/-- Lines of a file's contents, split at `'\n'`. Iterating a Python text file
yields these lines (with their terminators, which `str.strip` discards; a
trailing final `'\n'` yields one extra empty segment here, which every consumer
below treats like Python's absence of a further line, since empty lines are
skipped and only non-empty content lines matter). -/
def pyLines (contents : String) : List (List Char) :=
  splitOnChar '\n' contents.data

/-- Last `/`-separated segment of a path string (`pathlib.PurePath.name` for the
slash-joined path strings this model produces). -/
def lastSegmentAux : List Char → List Char → List Char
  | [], acc => acc.reverse
  | c :: cs, acc =>
    if c = '/' then lastSegmentAux cs []
    else lastSegmentAux cs (c :: acc)

/-- Filename (last path segment) of a `/`-joined path string. -/
def lastSegment (p : String) : String :=
  String.mk (lastSegmentAux p.data [])

/-- Drop leading and trailing whitespace from a character list (`str.strip()`). -/
def pyStripList (cs : List Char) : List Char :=
  (((cs.dropWhile Char.isWhitespace).reverse).dropWhile Char.isWhitespace).reverse

/-- Python `str.strip()` on `String`. -/
def pyStrip (s : String) : String :=
  String.mk (pyStripList s.data)

/-- First whitespace-delimited token: `s.split(maxsplit=1)[0]`. Python raises
`IndexError` when `s.split` returns `[]` (i.e. `s` is empty or all whitespace),
modelled by `none`. -/
def splitFirst (s : String) : Option String :=
  match s.data.dropWhile Char.isWhitespace with
  | [] => none
  | c :: cs => some (String.mk ((c :: cs).takeWhile (fun a => !a.isWhitespace)))

/-- Python `str.removeprefix(pre)`. -/
def dropPre (pre s : String) : String :=
  if listPrefixOf pre.data s.data then String.mk (s.data.drop pre.data.length) else s

/-- Python `str.removesuffix(suf)` (for the nonempty suffixes used here). -/
def dropSuf (suf s : String) : String :=
  if listPrefixOf suf.data.reverse s.data.reverse then
    String.mk (s.data.take (s.data.length - suf.data.length))
  else s

/-- Left-justify `s` in a field of width `w` (Python format spec `{:w}`):
pad with spaces on the right, leave longer strings unchanged. -/
def padTo (w : Nat) (s : String) : String :=
  s ++ String.mk (List.replicate (w - s.data.length) ' ')

/-- Python truthiness of an optional string argument (`argparse` yields `None`
or a string; the empty string is falsy). -/
def pyTruthy (o : Option String) : Bool :=
  match o with
  | some s => s ≠ ""
  | none => false

/-- Render `flag ++ value` when the optional value is truthy, else the empty
string; models the conditional expressions `f"-X {p}" if p else ""` used by the
Windows and macOS branches of `format_config`. -/
def optFlag (flag : String) (o : Option String) : String :=
  match o with
  | some s => if s = "" then "" else flag ++ s
  | none => ""

/-! ### `pathlib.PurePath.with_suffix`

`(dir / name).with_suffix(ext)` does NOT simply append `ext`: when the path's
name already has a suffix (a `'.'` at a position that is neither the first nor
the last character of the name, taking the rightmost such dot), that suffix is
first removed. `ridxDot` returns the distance from the END of the rightmost
`'.'` (so `j = 0` means the name ends in a dot, `j = length - 1` means it
starts with one). -/

/-- Distance from the end of the rightmost `'.'` in `cs`, if any. -/
def ridxDot : List Char → Option Nat
  | [] => none
  | c :: cs =>
    match ridxDot cs with
    | some j => some j
    | none => if c = '.' then some cs.length else none

/-- Length of the Python `PurePath.suffix` of a name given as a character list:
nonzero only when the rightmost dot is neither the first nor the last
character. -/
def pySuffixLen (cs : List Char) : Nat :=
  match ridxDot cs with
  | none => 0
  | some j => if j = 0 ∨ j = cs.length - 1 then 0 else j + 1

/-- Python `PurePath(name).with_suffix(ext).name` for a slash-free `name`:
drop the existing suffix (if any), then append `ext`. -/
def withSuffix (name ext : String) : String :=
  String.mk (name.data.take (name.data.length - pySuffixLen name.data) ++ ext.data)

/-! ### Platform profile (`class S`) -/

/-- Source `S.is_linux()`: `system() == "Linux"`. -/
def S.is_linux (sys : String) : Bool := sys == "Linux"

/-- Source `S.is_windows()`: `system() == "Windows"`. -/
def S.is_windows (sys : String) : Bool := sys == "Windows"

/-- Source `S.is_mac()`: `system() == "Darwin"`. -/
def S.is_mac (sys : String) : Bool := sys == "Darwin"

/-- Dispatch key of `S.ch`: `system()[0].lower()`, the lowercased first letter
of the detected platform name. -/
def S.chKey (sys : String) : Char := (sys.get 0).toLower

/-- Source `S.ch(d)`: look the key up in a dict with keys `"l"`, `"w"`, `"m"`
(whose values are always truthy here), raising `Exception("Unsupported
platform")` on a miss. The dict values are built eagerly in Python, but all of
them are pure, so passing them by value is equivalent. -/
def S.ch {α : Type} (sys : String) (dl dw dm : α) : Except String α :=
  if S.chKey sys = 'l' then Except.ok dl
  else if S.chKey sys = 'w' then Except.ok dw
  else if S.chKey sys = 'm' then Except.ok dm
  else Except.error "Unsupported platform"

/-- Source `S.config_path()`: the per-platform autostart directory. -/
def S.config_path (home sys : String) : Except String String :=
  S.ch sys (home ++ "/.config/autostart")
    (home ++ "/AppData/Roaming/Microsoft/Windows/Start Menu/Programs/Startup")
    (home ++ "/Library/LaunchAgents")

/-- Source `S.comment_prefix()`: the per-platform comment prefix. -/
def S.comment_pre (sys : String) : Except String String :=
  S.ch sys "# " "# " "<!--"

/-- Source `S.comment(s)`: the commented string. On the `"m"` branch the source
writes `f"{S.comment_prefix()}{s}\n-->"`; since `comment_prefix` can only raise
exactly when `ch` itself raises (same message), inlining the prefix values is
faithful. -/
def S.comment (sys s : String) : Except String String :=
  S.ch sys ("# " ++ s) ("# " ++ s) ("<!--" ++ s ++ "\n-->")

/-- Source `S.open_command()`. -/
def S.open_command (sys : String) : Except String String :=
  S.ch sys "xdg-open" "explorer" "open"

/-- Source `S.file_ext()`: the per-platform config file extension. -/
def S.file_ext (sys : String) : Except String String :=
  S.ch sys ".desktop" ".ps1" ".plist"

/-! ### Templates -/

/-- Source `LIST_BASE_STRING = "{:24} {:50}"` applied to two columns. -/
def LIST_BASE_STRING (a b : String) : String :=
  padTo 24 a ++ " " ++ padTo 50 b

/-- Source `LINUX_BASE_STRING` with its three format fields substituted. -/
def LINUX_BASE_STRING (prefixed_cmd name cmd : String) : String :=
  prefixed_cmd ++ "\n[Desktop Entry]\nType=Application\nVersion=1.0\nName=" ++ name ++
    "\nComment=" ++ name ++ " startup script\nExec=" ++ cmd ++
    "\nStartupNotify=false\nTerminal=false\n"

/-- Source `WINDOWS_BASE_STRING` with its four format fields substituted. -/
def WINDOWS_BASE_STRING (prefixed_cmd cmd stdout stderr : String) : String :=
  prefixed_cmd ++ "\nStart-Process \"cmd.exe\" -ArgumentList \"/c " ++ cmd ++
    "\" -WindowStyle Hidden " ++ stdout ++ " " ++ stderr ++ "\n"

/-- Source `MACOS_BASE_STRING` with its five format fields substituted. -/
def MACOS_BASE_STRING (prefixed_cmd name cmd stdout stderr : String) : String :=
  prefixed_cmd ++
    "\n<?xml version=\"1.0\" encoding=\"UTF-8\"?>\n<!DOCTYPE plist PUBLIC " ++
    "\"-//Apple//DTD PLIST 1.0//EN\" \"http://www.apple.com/DTDs/PropertyList-1.0.dtd\">\n" ++
    "<plist version=\"1.0\">\n<dict>\n    <key>Label</key>\n    <string>" ++ name ++
    "</string>\n    <key>ProgramArguments</key>\n    <array>\n        <string>" ++ cmd ++
    "</string>\n    </array>\n    <key>RunAtLoad</key>\n    <true/>\n    <key>KeepAlive</key>\n" ++
    "    <true/>\n    " ++ stdout ++ "\n    " ++ stderr ++ "\n</dict>\n</plist>\n"

/-! ### Filesystem model -/

/-- One file on disk: its full path, its contents, and whether opening it for
reading succeeds (models `IOError` on open). -/
structure FileEntry where
  path : String
  contents : String
  readable : Bool
deriving DecidableEq, Repr

/-- The filesystem: the files that exist, in directory-enumeration order. -/
structure FS where
  files : List FileEntry
deriving DecidableEq, Repr

/-- Python `Path.exists()`. -/
def FS.existsPath (fs : FS) (p : String) : Bool :=
  fs.files.any (fun e => e.path == p)

/-- Well-formedness: at most one file per path (the spec's own invariant). -/
def FS.WF (fs : FS) : Prop :=
  fs.files.Pairwise (fun a b => a.path ≠ b.path)

/-- Python `open(p, "r")` followed by reading: errors when the file is missing
or unreadable (`IOError` / `FileNotFoundError`). -/
def readFile (fs : FS) (p : String) : Except String String :=
  match fs.files.find? (fun e => e.path == p) with
  | some e => if e.readable then Except.ok e.contents else Except.error ("cannot read " ++ p)
  | none => Except.error ("cannot read " ++ p)

/-! ### `read_first_line` -/

/-- Loop body of source `read_first_line`: return the first line whose
`strip()` is non-empty and does not start with `"#!"`; if the iteration
exhausts all lines, the `for`/`else` raises `Exception("the file is empty")`. -/
def read_first_line_core : List (List Char) → Except String String
  | [] => Except.error "the file is empty"
  | l :: ls =>
    let s := pyStripList l
    if s ≠ [] ∧ listPrefixOf ['#', '!'] s = false then Except.ok (String.mk s)
    else read_first_line_core ls

/-- Source `read_first_line(file_path)` applied to the contents of an already
opened file (the open itself is `readFile`). -/
def read_first_line (contents : String) : Except String String :=
  read_first_line_core (pyLines contents)

/-! ### `format_config` -/

/-- Source `format_config(cmd, name, stdout, stderr)`. The platform tests are
the full-string comparisons `is_linux` / `is_windows` / `is_mac`; note that the
`is_mac` branch calls `S.comment`, which dispatches on the FIRST LETTER and
therefore raises for `sys = "Darwin"`. -/
def format_config (sys : String) (cmd : String) (name? : Option String)
    (stdout stderr : Option String) : Except String String := do
  let name ← match name? with
    | some n => Except.ok n
    | none =>
      match splitFirst cmd with
      | some t => Except.ok t
      | none => Except.error "IndexError: list index out of range"
  if S.is_linux sys then do
    let pc ← S.comment sys cmd
    Except.ok (LINUX_BASE_STRING pc name cmd)
  else if S.is_windows sys then do
    let pc ← S.comment sys cmd
    Except.ok (WINDOWS_BASE_STRING pc cmd
      (optFlag "-RedirectStandardOutput " stdout) (optFlag "-RedirectStandardError " stderr))
  else if S.is_mac sys then do
    let pc ← S.comment sys cmd
    Except.ok (MACOS_BASE_STRING pc name cmd
      (optFlag "<key>StandardOutPath</key>\n<string>" stdout |> fun s => if s = "" then "" else s ++ "</string>")
      (optFlag "<key>StandardErrorPath</key>\n<string>" stderr |> fun s => if s = "" then "" else s ++ "</string>"))
  else Except.error "Unsupported platform"

/-! ### Path computation and `find_writable_path` -/

/-- The on-disk path for an id: `(S.config_path() / id).with_suffix(S.file_ext())`
for a nonempty, slash-free id — the formula shared by `find_writable_path` and
`remove_item`. -/
def configFilePath (dir id ext : String) : String :=
  dir ++ "/" ++ withSuffix id ext

/-- The `i`-th candidate path probed by `find_writable_path`: the bare name
first, then `f"{name}{i}"` for `i = 1, 2, ...`. -/
def probePath (dir name ext : String) (i : Nat) : String :=
  if i = 0 then configFilePath dir name ext
  else configFilePath dir (name ++ Nat.repr i) ext

/-- Probe loop of `find_writable_path`, with explicit fuel: starting at index
`i`, try `fuel` successive candidates and return the first that does not exist;
running out of fuel raises `Exception("TOO MANY ITEMS OF SAME NAME!")`. -/
def probeFrom (fs : FS) (dir name ext : String) : Nat → Nat → Except String String
  | 0, _ => Except.error "TOO MANY ITEMS OF SAME NAME!"
  | fuel + 1, i =>
    let p := probePath dir name ext i
    if fs.existsPath p then probeFrom fs dir name ext fuel (i + 1)
    else Except.ok p

/-- Source `find_writable_path(name)`: the initial existence check on the bare
name followed by the `for i in range(1, 1000)` loop is exactly 1000 probes at
indices `0, 1, ..., 999`. -/
def find_writable_path (fs : FS) (dir name ext : String) : Except String String :=
  probeFrom fs dir name ext 1000 0

/-! ### Item store operations -/

/-- Parsed `add` arguments (`item.command`, `item.stdout`, `item.stderr`). -/
structure AddArgs where
  command : String
  stdout : Option String
  stderr : Option String
deriving DecidableEq, Repr

/-- The warnings `add_item` logs: on Linux, when a truthy `--stdout` or
`--stderr` was supplied, warn that redirection is unsupported there (logging is
modelled separately from the filesystem effect, which it does not touch). -/
def add_warnings (sys : String) (item : AddArgs) : List String :=
  if S.is_linux sys = true ∧ (pyTruthy item.stdout || pyTruthy item.stderr) = true then
    ["stdout and stderr are not supported for linux startup scripts. " ++
      "please append shell redirection operators to your command manually."]
  else []

/-- Source `add_item(item)`: derive the name from the command's first token
(IndexError if there is none), find a writable path, render the body and write
it. The source opens the file before calling `format_config`; for the real
`system()` values (`"Linux"`, `"Windows"`, `"Darwin"`) this is unobservable,
because whenever `find_writable_path` succeeds (first letter `l`/`w`/`m`),
`format_config` only raises for `"Darwin"` — and there `find_writable_path`
already raised. On success, returns the new filesystem and the written path. -/
def add_item (sys home : String) (fs : FS) (item : AddArgs) :
    Except String (FS × String) := do
  let cmd := item.command
  let name ← match splitFirst cmd with
    | some t => Except.ok t
    | none => Except.error "IndexError: list index out of range"
  let dir ← S.config_path home sys
  let ext ← S.file_ext sys
  let path ← find_writable_path fs dir name ext
  let body ← format_config sys cmd (some name) item.stdout item.stderr
  Except.ok (⟨⟨path, body, true⟩ :: fs.files⟩, path)

/-- Membership test of the enumeration `S.config_path().glob(f"*{S.file_ext()}")`:
a path directly inside `dir` (no further `/`) whose filename ends with `ext`. -/
def inDirWithExt (dir ext path : String) : Bool :=
  listPrefixOf (dir.data ++ ['/']) path.data &&
    listPrefixOf ext.data.reverse path.data.reverse &&
    !containsChar '/' (path.data.drop (dir.data.length + 1))

/-- Effectful map over a list in `Except`, evaluated eagerly left to right:
models `list(map(f, files))`, which the source fully evaluates BEFORE printing
any output line. -/
def mapExcept {α β : Type} (f : α → Except String β) : List α → Except String (List β)
  | [] => Except.ok []
  | a :: as => do
    let b ← f a
    let bs ← mapExcept f as
    Except.ok (b :: bs)

/-- Source `list_items(_)`: enumerate the config files, recover each first
content line with the comment prefix removed and whitespace stripped (all
BEFORE printing), then return the printed lines: the header row followed by one
row per file. An `Except.error` result models the raised exception: in that
case the `print` calls are never reached and no table line is printed. -/
def list_items (sys home : String) (fs : FS) : Except String (List String) := do
  let dir ← S.config_path home sys
  let ext ← S.file_ext sys
  let files := fs.files.filter (fun e => inDirWithExt dir ext e.path)
  let cpre ← S.comment_pre sys
  let firstLines ← mapExcept (fun e => do
      let c ← readFile fs e.path
      let l ← read_first_line c
      Except.ok (pyStrip (dropPre cpre l))) files
  Except.ok (LIST_BASE_STRING "id" "command" ::
    (files.zip firstLines).map (fun pr => LIST_BASE_STRING (dropSuf ext (lastSegment pr.1.path)) pr.2))

/-- The lines a listing actually prints: the returned rows on success, nothing
when the listing raised. -/
def printed_lines (r : Except String (List String)) : List String :=
  match r with
  | Except.ok ls => ls
  | Except.error _ => []

/-- Source `remove_item(item)`: compute the target path; if it exists, unlink
it (result flag `true`); otherwise log a `NotFound` error and return without
side effects (result flag `false`, filesystem unchanged, no exception). -/
def remove_item (sys home : String) (fs : FS) (id : String) :
    Except String (FS × Bool) := do
  let dir ← S.config_path home sys
  let ext ← S.file_ext sys
  let p := configFilePath dir id ext
  if fs.existsPath p then
    Except.ok (⟨fs.files.filter (fun e => e.path ≠ p)⟩, true)
  else
    Except.ok (fs, false)

/-! ### Helper lemmas on the string primitives -/

theorem mk_data (s : String) : String.mk s.data = s := by
  cases s
  rfl

theorem append_data (a b : String) : (a ++ b).data = a.data ++ b.data :=
  String.data_append a b

theorem listPrefixOf_append (l r : List Char) : listPrefixOf l (l ++ r) = true := by
  induction l with
  | nil => rfl
  | cons a as ih => simp [listPrefixOf, ih]

theorem containsChar_eq_false_iff (c : Char) (l : List Char) :
    containsChar c l = false ↔ c ∉ l := by
  induction l with
  | nil => simp [containsChar]
  | cons a as ih =>
    simp only [containsChar, Bool.or_eq_false_iff, beq_eq_false_iff_ne, ih, List.mem_cons]
    constructor
    · rintro ⟨h1, h2⟩ (rfl | h3)
      · exact h1 rfl
      · exact h2 h3
    · intro h
      exact ⟨fun he => h (Or.inl he.symm), fun hm => h (Or.inr hm)⟩

theorem containsChar_append (c : Char) (a b : List Char) :
    containsChar c (a ++ b) = (containsChar c a || containsChar c b) := by
  induction a with
  | nil => simp [containsChar]
  | cons x xs ih => simp [containsChar, ih, Bool.or_assoc]

theorem digitChar_isDigit : ∀ m < 10, (Nat.digitChar m).isDigit = true := by decide

theorem toDigitsCore_all_isDigit (f : Nat) : ∀ (n : Nat) (acc : List Char),
    (∀ c ∈ acc, c.isDigit = true) → ∀ c ∈ Nat.toDigitsCore 10 f n acc, c.isDigit = true := by
  induction f with
  | zero =>
    intro n acc hacc
    simpa [Nat.toDigitsCore] using hacc
  | succ f ih =>
    intro n acc hacc c hc
    simp only [Nat.toDigitsCore] at hc
    have hd : (Nat.digitChar (n % 10)).isDigit = true :=
      digitChar_isDigit _ (Nat.mod_lt n (by norm_num))
    by_cases h10 : n / 10 = 0
    · simp only [h10, if_pos rfl] at hc
      rcases List.mem_cons.mp hc with rfl | hmem
      · exact hd
      · exact hacc c hmem
    · simp only [if_neg h10] at hc
      refine ih (n / 10) (Nat.digitChar (n % 10) :: acc) ?_ c hc
      intro x hx
      rcases List.mem_cons.mp hx with rfl | hmem
      · exact hd
      · exact hacc x hmem

theorem repr_all_digits (n : Nat) : ∀ c ∈ (Nat.repr n).data, c.isDigit = true := by
  intro c hc
  have : (Nat.repr n).data = Nat.toDigitsCore 10 (n + 1) n [] := rfl
  rw [this] at hc
  exact toDigitsCore_all_isDigit (n + 1) n [] (by simp) c hc

theorem isDigit_not_dot {c : Char} (h : c.isDigit = true) : c ≠ '.' := by
  intro hc
  subst hc
  simp [Char.isDigit] at h

theorem isDigit_not_slash {c : Char} (h : c.isDigit = true) : c ≠ '/' := by
  intro hc
  subst hc
  simp [Char.isDigit] at h

theorem repr_no_dot (n : Nat) : containsChar '.' (Nat.repr n).data = false :=
  (containsChar_eq_false_iff _ _).mpr fun hm => isDigit_not_dot (repr_all_digits n _ hm) rfl

theorem repr_no_slash (n : Nat) : containsChar '/' (Nat.repr n).data = false :=
  (containsChar_eq_false_iff _ _).mpr fun hm => isDigit_not_slash (repr_all_digits n _ hm) rfl

theorem ridxDot_eq_none : ∀ {l : List Char}, '.' ∉ l → ridxDot l = none := by
  intro l
  induction l with
  | nil => intro _; rfl
  | cons c cs ih =>
    intro h
    have hc : c ≠ '.' := fun hh => h (hh ▸ List.mem_cons_self c cs)
    have hcs : '.' ∉ cs := fun hm => h (List.mem_cons_of_mem c hm)
    simp [ridxDot, ih hcs, hc]

theorem withSuffix_of_no_dot (n ext : String) (h : containsChar '.' n.data = false) :
    withSuffix n ext = n ++ ext := by
  have hnot : '.' ∉ n.data := (containsChar_eq_false_iff _ _).mp h
  have h1 : ridxDot n.data = none := ridxDot_eq_none hnot
  have h2 : pySuffixLen n.data = 0 := by simp [pySuffixLen, h1]
  have h3 : withSuffix n ext = String.mk (n.data ++ ext.data) := by
    unfold withSuffix
    rw [h2, Nat.sub_zero, List.take_length]
  rw [h3, ← append_data, mk_data]

/-! ### Helper lemmas on the platform dispatch -/

theorem ch_ok_cases {α : Type} {sys : String} {a b c x : α}
    (h : S.ch sys a b c = Except.ok x) :
    S.chKey sys = 'l' ∨ S.chKey sys = 'w' ∨ S.chKey sys = 'm' := by
  unfold S.ch at h
  by_cases h1 : S.chKey sys = 'l'
  · exact Or.inl h1
  by_cases h2 : S.chKey sys = 'w'
  · exact Or.inr (Or.inl h2)
  by_cases h3 : S.chKey sys = 'm'
  · exact Or.inr (Or.inr h3)
  · simp [h1, h2, h3] at h

theorem ch_eval_l {α : Type} {sys : String} (h : S.chKey sys = 'l') (a b c : α) :
    S.ch sys a b c = Except.ok a := by
  simp [S.ch, h]

theorem ch_eval_w {α : Type} {sys : String} (h : S.chKey sys = 'w') (a b c : α) :
    S.ch sys a b c = Except.ok b := by
  simp [S.ch, h]

theorem ch_eval_m {α : Type} {sys : String} (h : S.chKey sys = 'm') (a b c : α) :
    S.ch sys a b c = Except.ok c := by
  simp [S.ch, h]

/-! ### Helper lemmas on the probe loop -/

theorem probeFrom_ok_not_exists (fs : FS) (dir name ext : String) :
    ∀ fuel i p, probeFrom fs dir name ext fuel i = Except.ok p → fs.existsPath p = false := by
  intro fuel
  induction fuel with
  | zero => intro i p h; simp [probeFrom] at h
  | succ f ih =>
    intro i p h
    simp only [probeFrom] at h
    by_cases he : fs.existsPath (probePath dir name ext i) = true
    · rw [if_pos he] at h
      exact ih _ _ h
    · rw [if_neg he] at h
      cases h
      simpa using he

theorem probeFrom_ok_shape (fs : FS) (dir name ext : String) :
    ∀ fuel i p, probeFrom fs dir name ext fuel i = Except.ok p →
      ∃ k, k < fuel ∧ p = probePath dir name ext (i + k) := by
  intro fuel
  induction fuel with
  | zero => intro i p h; simp [probeFrom] at h
  | succ f ih =>
    intro i p h
    simp only [probeFrom] at h
    by_cases he : fs.existsPath (probePath dir name ext i) = true
    · rw [if_pos he] at h
      obtain ⟨k, hk, hp⟩ := ih _ _ h
      exact ⟨k + 1, by omega, by rw [hp]; congr 1; omega⟩
    · rw [if_neg he] at h
      cases h
      exact ⟨0, by omega, by simp⟩

theorem probeFrom_error_of_all (fs : FS) (dir name ext : String) :
    ∀ fuel i, (∀ k, k < fuel → fs.existsPath (probePath dir name ext (i + k)) = true) →
      probeFrom fs dir name ext fuel i = Except.error "TOO MANY ITEMS OF SAME NAME!" := by
  intro fuel
  induction fuel with
  | zero => intro i _; rfl
  | succ f ih =>
    intro i hall
    have h0 : fs.existsPath (probePath dir name ext i) = true := by
      have := hall 0 (by omega)
      simpa using this
    simp only [probeFrom, h0, if_true]
    refine ih (i + 1) fun k hk => ?_
    have := hall (k + 1) (by omega)
    have harg : i + (k + 1) = i + 1 + k := by omega
    rwa [harg] at this

theorem probeFrom_first (fs : FS) (dir name ext : String) :
    ∀ fuel i k, k < fuel → fs.existsPath (probePath dir name ext (i + k)) = false →
      (∀ j, j < k → fs.existsPath (probePath dir name ext (i + j)) = true) →
      probeFrom fs dir name ext fuel i = Except.ok (probePath dir name ext (i + k)) := by
  intro fuel
  induction fuel with
  | zero => intro i k hk; omega
  | succ f ih =>
    intro i k hk hfree hprev
    cases k with
    | zero =>
      have hfree0 : fs.existsPath (probePath dir name ext i) = false := by simpa using hfree
      simp [probeFrom, hfree0]
    | succ k =>
      have h0 : fs.existsPath (probePath dir name ext i) = true := by
        have := hprev 0 (by omega)
        simpa using this
      simp only [probeFrom, h0, if_true]
      have harg : i + (k + 1) = i + 1 + k := by omega
      rw [harg] at hfree ⊢
      refine ih (i + 1) k (by omega) hfree fun j hj => ?_
      have := hprev (j + 1) (by omega)
      have harg2 : i + (j + 1) = i + 1 + j := by omega
      rwa [harg2] at this

/-! ### Helper lemmas on `mapExcept` -/

theorem mapExcept_ok_of_forall {α β : Type} (f : α → Except String β) :
    ∀ l : List α, (∀ a ∈ l, ∃ b, f a = Except.ok b) →
      ∃ bs, mapExcept f l = Except.ok bs := by
  intro l
  induction l with
  | nil => intro _; exact ⟨[], rfl⟩
  | cons a as ih =>
    intro h
    obtain ⟨b, hb⟩ := h a (List.mem_cons_self a as)
    obtain ⟨bs, hbs⟩ := ih fun x hx => h x (List.mem_cons_of_mem a hx)
    exact ⟨b :: bs, by simp [mapExcept, hb, hbs, Bind.bind, Except.bind]⟩

theorem mapExcept_error_of_mem {α β : Type} (f : α → Except String β) :
    ∀ (l : List α) (a : α) (m : String), a ∈ l → f a = Except.error m →
      ∃ m2, mapExcept f l = Except.error m2 := by
  intro l
  induction l with
  | nil => intro a m h; simp at h
  | cons x xs ih =>
    intro a m hmem hfa
    rcases List.mem_cons.mp hmem with rfl | htail
    · exact ⟨m, by simp [mapExcept, hfa, Bind.bind, Except.bind]⟩
    · cases hfx : f x with
      | error m3 => exact ⟨m3, by simp [mapExcept, hfx, Bind.bind, Except.bind]⟩
      | ok b =>
        obtain ⟨m2, hm2⟩ := ih a m htail hfa
        exact ⟨m2, by simp [mapExcept, hfx, hm2, Bind.bind, Except.bind]⟩

/-! ### Helper lemmas on line and path splitting -/

theorem splitOnCharAux_no_sep (sep : Char) :
    ∀ {l : List Char}, sep ∉ l → ∀ acc, splitOnCharAux sep l acc = [acc.reverse ++ l] := by
  intro l
  induction l with
  | nil => intro _ acc; simp [splitOnCharAux]
  | cons c cs ih =>
    intro h acc
    have hc : ¬ c = sep := fun hh => h (hh ▸ List.mem_cons_self c cs)
    have hcs : sep ∉ cs := fun hm => h (List.mem_cons_of_mem c hm)
    simp [splitOnCharAux, hc, ih hcs]

theorem splitOnCharAux_break (sep : Char) :
    ∀ {l₁ : List Char}, sep ∉ l₁ → ∀ l₂ acc,
      splitOnCharAux sep (l₁ ++ sep :: l₂) acc = (acc.reverse ++ l₁) :: splitOnChar sep l₂ := by
  intro l₁
  induction l₁ with
  | nil => intro _ l₂ acc; simp [splitOnCharAux, splitOnChar]
  | cons c cs ih =>
    intro h l₂ acc
    have hc : ¬ c = sep := fun hh => h (hh ▸ List.mem_cons_self c cs)
    have hcs : sep ∉ cs := fun hm => h (List.mem_cons_of_mem c hm)
    simp [splitOnCharAux, hc, ih hcs]

theorem lastSegmentAux_append :
    ∀ (l w acc : List Char), lastSegmentAux (l ++ '/' :: w) acc = lastSegmentAux w [] := by
  intro l
  induction l with
  | nil => intro w acc; simp [lastSegmentAux]
  | cons c cs ih =>
    intro w acc
    by_cases hc : c = '/'
    · simp [lastSegmentAux, hc, ih]
    · simp [lastSegmentAux, hc, ih]

theorem lastSegmentAux_no_slash :
    ∀ {w : List Char}, '/' ∉ w → ∀ acc, lastSegmentAux w acc = acc.reverse ++ w := by
  intro w
  induction w with
  | nil => intro _ acc; simp [lastSegmentAux]
  | cons c cs ih =>
    intro h acc
    have hc : ¬ c = '/' := fun hh => h (hh ▸ List.mem_cons_self c cs)
    have hcs : '/' ∉ cs := fun hm => h (List.mem_cons_of_mem c hm)
    simp [lastSegmentAux, hc, ih hcs]

theorem lastSegment_append {dir w : String} (h : containsChar '/' w.data = false) :
    lastSegment (dir ++ "/" ++ w) = w := by
  have hd : (dir ++ "/" ++ w).data = dir.data ++ '/' :: w.data := by
    rw [append_data, append_data, List.append_assoc]
    rfl
  have hw : '/' ∉ w.data := (containsChar_eq_false_iff _ _).mp h
  unfold lastSegment
  rw [hd, lastSegmentAux_append, lastSegmentAux_no_slash hw]
  simp [mk_data]

/-! ### Helper lemmas on stripping -/

theorem pyStrip_fixed_parts {s : String} (h : pyStrip s = s) :
    s.data.dropWhile Char.isWhitespace = s.data ∧
      s.data.reverse.dropWhile Char.isWhitespace = s.data.reverse := by
  have hl : pyStripList s.data = s.data := by
    have := congrArg String.data h
    simpa [pyStrip] using this
  have hsuf1 : s.data.dropWhile Char.isWhitespace <:+ s.data := List.dropWhile_suffix _
  have hsuf2 : (s.data.dropWhile Char.isWhitespace).reverse.dropWhile Char.isWhitespace <:+
      (s.data.dropWhile Char.isWhitespace).reverse := List.dropWhile_suffix _
  have hlen2 := hsuf2.length_le
  have hlen1 := hsuf1.length_le
  have hlenStrip : (pyStripList s.data).length =
      ((s.data.dropWhile Char.isWhitespace).reverse.dropWhile Char.isWhitespace).length := by
    simp [pyStripList]
  have hEq : (s.data.dropWhile Char.isWhitespace).length = s.data.length := by
    rw [hl] at hlenStrip
    simp only [List.length_reverse] at hlen2 hlenStrip
    omega
  have h1 : s.data.dropWhile Char.isWhitespace = s.data := hsuf1.eq_of_length hEq
  refine ⟨h1, ?_⟩
  have : pyStripList s.data = (s.data.reverse.dropWhile Char.isWhitespace).reverse := by
    simp [pyStripList, h1]
  rw [hl] at this
  have := congrArg List.reverse this
  simpa using this.symm

theorem head_not_ws {s : String} (h : pyStrip s = s) (hne : s ≠ "") :
    ∃ c cs, s.data = c :: cs ∧ c.isWhitespace = false := by
  obtain ⟨h1, _⟩ := pyStrip_fixed_parts h
  cases hd : s.data with
  | nil =>
    exact absurd (by cases s with | mk d => simp at hd; simp [hd]) hne
  | cons c cs =>
    rw [hd] at h1
    refine ⟨c, cs, rfl, ?_⟩
    by_cases hc : c.isWhitespace = true
    · exfalso
      rw [List.dropWhile_cons, if_pos hc] at h1
      have := congrArg List.length h1
      have hle := (List.dropWhile_suffix (l := cs) Char.isWhitespace).length_le
      simp at this
      omega
    · simpa using hc

theorem last_not_ws {s : String} (h : pyStrip s = s) (hne : s ≠ "") :
    ∃ c cs, s.data.reverse = c :: cs ∧ c.isWhitespace = false := by
  obtain ⟨_, h2⟩ := pyStrip_fixed_parts h
  cases hd : s.data.reverse with
  | nil =>
    exfalso
    have : s.data = [] := by simpa using congrArg List.reverse hd
    exact hne (by cases s with | mk d => simp at this; simp [this])
  | cons c cs =>
    rw [hd] at h2
    refine ⟨c, cs, rfl, ?_⟩
    by_cases hc : c.isWhitespace = true
    · exfalso
      rw [List.dropWhile_cons, if_pos hc] at h2
      have := congrArg List.length h2
      have hle := (List.dropWhile_suffix (l := cs) Char.isWhitespace).length_le
      simp at this
      omega
    · simpa using hc

/-! ### Helper lemmas on the filesystem -/

theorem existsPath_false_iff (fs : FS) (p : String) :
    fs.existsPath p = false ↔ ∀ e ∈ fs.files, e.path ≠ p := by
  unfold FS.existsPath
  rw [← Bool.not_eq_true, List.any_eq_true]
  constructor
  · intro h e he
    exact fun hp => h ⟨e, he, by simp [hp]⟩
  · rintro h ⟨e, he, hp⟩
    exact h e he (by simpa using hp)

theorem find_path_of_pairwise :
    ∀ {l : List FileEntry}, l.Pairwise (fun a b => a.path ≠ b.path) →
      ∀ {e : FileEntry}, e ∈ l → l.find? (fun x => x.path == e.path) = some e := by
  intro l
  induction l with
  | nil => intro _ e he; simp at he
  | cons a as ih =>
    intro hp e he
    rcases List.mem_cons.mp he with rfl | htail
    · simp [List.find?]
    · have hne : a.path ≠ e.path := (List.pairwise_cons.mp hp).1 e htail
      have hb : (a.path == e.path) = false := by simpa using hne
      simp only [List.find?, hb]
      exact ih (List.pairwise_cons.mp hp).2 htail

theorem readFile_of_WF {fs : FS} (hWF : fs.WF) {e : FileEntry} (he : e ∈ fs.files) :
    readFile fs e.path =
      if e.readable then Except.ok e.contents else Except.error ("cannot read " ++ e.path) := by
  unfold readFile
  rw [find_path_of_pairwise hWF he]

theorem format_config_linux (cmd name : String) (o e : Option String) :
    format_config "Linux" cmd (some name) o e =
      Except.ok (LINUX_BASE_STRING ("# " ++ cmd) name cmd) := rfl

/-! ### Claim theorems -/

/-- Claim C1: the claim says every Platform Profile lookup succeeds on each of
the three supported platforms, macOS included. The code violates this:
`platform.system()` returns `"Darwin"` on macOS, `S.ch` dispatches on the
lowercased FIRST letter (`'d'`), and the macOS table entries are stored under
key `"m"`, so every lookup raises `Unsupported platform` on macOS even though
the code's own `is_mac` test (`system() == "Darwin"`) and its macOS template
show macOS is meant to be supported. Linux and Windows lookups do return the
table's values. -/
theorem c1_macos_lookup_bug :
    S.is_mac "Darwin" = true ∧
    S.chKey "Darwin" = 'd' ∧
    S.config_path "/home/u" "Darwin" = Except.error "Unsupported platform" ∧
    S.file_ext "Darwin" = Except.error "Unsupported platform" ∧
    S.comment "Darwin" "cmd arg" = Except.error "Unsupported platform" ∧
    S.open_command "Darwin" = Except.error "Unsupported platform" ∧
    S.config_path "/home/u" "Linux" = Except.ok "/home/u/.config/autostart" ∧
    S.file_ext "Linux" = Except.ok ".desktop" ∧
    S.comment "Linux" "cmd arg" = Except.ok "# cmd arg" ∧
    S.open_command "Linux" = Except.ok "xdg-open" ∧
    S.config_path "/home/u" "Windows" =
      Except.ok "/home/u/AppData/Roaming/Microsoft/Windows/Start Menu/Programs/Startup" ∧
    S.file_ext "Windows" = Except.ok ".ps1" ∧
    S.comment "Windows" "cmd arg" = Except.ok "# cmd arg" ∧
    S.open_command "Windows" = Except.ok "explorer" :=
  ⟨rfl, rfl, rfl, rfl, rfl, rfl, rfl, rfl, rfl, rfl, rfl, rfl, rfl, rfl⟩

/-- Claim C2 counterexample: the claim says the path is the concatenation
`<dir>/<id><ext>` even when the id contains a dot. For id `"foo.sh"` on Linux
the code computes `<dir>/foo.desktop` (because `Path.with_suffix` REPLACES the
existing `.sh` suffix), not `<dir>/foo.sh.desktop`; consequently
`remove("foo.sh")` deletes `foo.desktop`. -/
theorem c2_counterexample :
    configFilePath "/home/u/.config/autostart" "foo.sh" ".desktop" =
      "/home/u/.config/autostart/foo.desktop" ∧
    "/home/u/.config/autostart/foo.desktop" ≠ "/home/u/.config/autostart/foo.sh.desktop" ∧
    remove_item "Linux" "/home/u"
        ⟨[⟨"/home/u/.config/autostart/foo.desktop", "# foo.sh run", true⟩]⟩ "foo.sh" =
      Except.ok (⟨[]⟩, true) :=
  ⟨rfl, by decide, rfl⟩

/-- Claim C2 amended: for an id containing no dot, the on-disk path probed by
`add` (index-0 probe) and targeted by `remove` is exactly the concatenation
`<dir>/<id><ext>`; when the id has a dot-suffix, `with_suffix` first replaces
it, so the claim as stated fails (see the counterexample). -/
theorem c2_amended (dir id ext : String) (hdot : containsChar '.' id.data = false) :
    probePath dir id ext 0 = dir ++ "/" ++ id ++ ext ∧
    configFilePath dir id ext = dir ++ "/" ++ id ++ ext := by
  have h := withSuffix_of_no_dot id ext hdot
  have hc : configFilePath dir id ext = dir ++ "/" ++ id ++ ext := by
    rw [configFilePath, h, ← String.append_assoc]
  exact ⟨by simpa [probePath] using hc, hc⟩

theorem c2_amended_witness :
    probePath "/home/u/.config/autostart" "foo" ".desktop" 0 =
      "/home/u/.config/autostart/foo.desktop" ∧
    configFilePath "/home/u/.config/autostart" "foo" ".desktop" =
      "/home/u/.config/autostart/foo.desktop" :=
  c2_amended "/home/u/.config/autostart" "foo" ".desktop" (by decide)

/-- Claim C6: for every id whose computed file path does not exist, `remove`
takes the not-found branch: it returns normally (no exception, the `False`
flag models the logged `NotFound` error) and the filesystem is returned
unchanged. -/
theorem c6_remove_nonexistent (sys home dir ext id : String) (fs : FS)
    (hdir : S.config_path home sys = Except.ok dir)
    (hext : S.file_ext sys = Except.ok ext)
    (hnot : fs.existsPath (configFilePath dir id ext) = false) :
    remove_item sys home fs id = Except.ok (fs, false) := by
  simp [remove_item, hdir, hext, Bind.bind, Except.bind, hnot]

theorem c6_remove_nonexistent_witness :
    remove_item "Linux" "/home/u"
        ⟨[⟨"/home/u/.config/autostart/hello.desktop", "# hello", true⟩]⟩ "ghost" =
      Except.ok (⟨[⟨"/home/u/.config/autostart/hello.desktop", "# hello", true⟩]⟩, false) :=
  c6_remove_nonexistent "Linux" "/home/u" "/home/u/.config/autostart" ".desktop" "ghost"
    ⟨[⟨"/home/u/.config/autostart/hello.desktop", "# hello", true⟩]⟩ rfl rfl (by decide)

/-- Claim C7: on Linux the `--stdout`/`--stderr` arguments have no influence on
the result of `add` — the entire outcome (written path, rendered body, new
filesystem, or error) is identical for any two choices of them — and the
warning is emitted exactly when one of them was supplied (truthy). -/
theorem c7_linux_redirection_no_influence (home : String) (fs : FS) (cmd : String)
    (o1 e1 o2 e2 : Option String) :
    add_item "Linux" home fs ⟨cmd, o1, e1⟩ = add_item "Linux" home fs ⟨cmd, o2, e2⟩ ∧
    (add_warnings "Linux" ⟨cmd, o1, e1⟩ ≠ [] ↔ (pyTruthy o1 || pyTruthy e1) = true) := by
  constructor
  · unfold add_item
    simp only [format_config_linux]
  · by_cases h : (pyTruthy o1 || pyTruthy e1) = true
    · simp [add_warnings, S.is_linux, h]
    · simp [add_warnings, S.is_linux, h]

/-- Claim C8: `list()` over a filesystem with no file in the autostart
directory carrying the platform extension returns exactly one printed line,
the header row with columns `id` and `command`. -/
theorem c8_list_empty_dir (sys home dir ext : String) (fs : FS)
    (hdir : S.config_path home sys = Except.ok dir)
    (hext : S.file_ext sys = Except.ok ext)
    (hnone : ∀ e ∈ fs.files, inDirWithExt dir ext e.path = false) :
    list_items sys home fs = Except.ok [LIST_BASE_STRING "id" "command"] := by
  have hfil : fs.files.filter (fun e => inDirWithExt dir ext e.path) = [] := by
    rw [List.filter_eq_nil_iff]
    intro a ha
    simp [hnone a ha]
  have hkey := ch_ok_cases (show S.ch sys _ _ _ = Except.ok dir from hdir)
  rcases hkey with hk | hk | hk
  · have hcpre : S.comment_pre sys = Except.ok "# " := ch_eval_l hk _ _ _
    simp [list_items, hdir, hext, hfil, hcpre, Bind.bind, Except.bind, mapExcept]
  · have hcpre : S.comment_pre sys = Except.ok "# " := ch_eval_w hk _ _ _
    simp [list_items, hdir, hext, hfil, hcpre, Bind.bind, Except.bind, mapExcept]
  · have hcpre : S.comment_pre sys = Except.ok "<!--" := ch_eval_m hk _ _ _
    simp [list_items, hdir, hext, hfil, hcpre, Bind.bind, Except.bind, mapExcept]

theorem c8_list_empty_dir_witness :
    list_items "Linux" "/home/u" ⟨[]⟩ = Except.ok [LIST_BASE_STRING "id" "command"] :=
  c8_list_empty_dir "Linux" "/home/u" "/home/u/.config/autostart" ".desktop" ⟨[]⟩ rfl rfl
    (by intro e he; simp at he)

/-- Claim C9: `add` with a command that is empty or all whitespace fails with
the unhandled `IndexError` from `cmd.split(maxsplit=1)[0]`, before any
filesystem access or write (the error result carries no filesystem). -/
theorem c9_empty_command_index_error (sys home : String) (fs : FS) (item : AddArgs)
    (hws : ∀ c ∈ item.command.data, c.isWhitespace = true) :
    add_item sys home fs item = Except.error "IndexError: list index out of range" := by
  have hsp : splitFirst item.command = none := by
    unfold splitFirst
    rw [List.dropWhile_eq_nil_iff.mpr hws]
  simp [add_item, hsp, Bind.bind, Except.bind]

theorem c9_empty_command_index_error_witness :
    add_item "Linux" "/home/u" ⟨[]⟩ ⟨"  ", none, none⟩ =
      Except.error "IndexError: list index out of range" :=
  c9_empty_command_index_error "Linux" "/home/u" ⟨[]⟩ ⟨"  ", none, none⟩ (by decide)

theorem rflc_error_iff : ∀ ls : List (List Char),
    read_first_line_core ls = Except.error "the file is empty" ↔
      ∀ l ∈ ls, pyStripList l = [] ∨ listPrefixOf ['#', '!'] (pyStripList l) = true := by
  intro ls
  induction ls with
  | nil => simp [read_first_line_core]
  | cons l ls ih =>
    unfold read_first_line_core
    by_cases h : pyStripList l ≠ [] ∧ listPrefixOf ['#', '!'] (pyStripList l) = false
    · rw [if_pos h]
      constructor
      · intro hok
        exact absurd hok (by simp)
      · intro hall
        exfalso
        rcases hall l (List.mem_cons_self l ls) with h1 | h2
        · exact h.1 h1
        · rw [h.2] at h2
          cases h2
    · rw [if_neg h, ih]
      constructor
      · intro hall l2 hl2
        rcases List.mem_cons.mp hl2 with rfl | hm
        · by_cases hs : pyStripList l2 = []
          · exact Or.inl hs
          · right
            by_cases hp : listPrefixOf ['#', '!'] (pyStripList l2) = true
            · exact hp
            · exact absurd ⟨hs, by simpa using hp⟩ h
        · exact hall l2 hm
      · intro hall l2 hm
        exact hall l2 (List.mem_cons_of_mem l hm)

theorem rflc_first_good : ∀ (pre post : List (List Char)) (l : List Char),
    (∀ l2 ∈ pre, pyStripList l2 = [] ∨ listPrefixOf ['#', '!'] (pyStripList l2) = true) →
    pyStripList l ≠ [] → listPrefixOf ['#', '!'] (pyStripList l) = false →
    read_first_line_core (pre ++ l :: post) = Except.ok (String.mk (pyStripList l)) := by
  intro pre
  induction pre with
  | nil =>
    intro post l _ h1 h2
    rw [List.nil_append]
    unfold read_first_line_core
    rw [if_pos ⟨h1, h2⟩]
  | cons p ps ih =>
    intro post l hall h1 h2
    rw [List.cons_append]
    unfold read_first_line_core
    rw [if_neg ?_]
    · exact ih post l (fun l2 hm => hall l2 (List.mem_cons_of_mem p hm)) h1 h2
    · rintro ⟨hne, hf⟩
      rcases hall p (List.mem_cons_self p ps) with hp | hp
      · exact hne hp
      · rw [hp] at hf
        cases hf

/-- Claim C10: during `list()`, a config file whose lines are all
whitespace-only or `#!`-shebangs yields the very same `the file is empty`
error as a zero-byte file, even though the file has content; otherwise the
first line that strips to something non-empty not starting with `#!` is
returned, stripped. -/
theorem c10_blank_or_shebang_counts_as_empty (c : String) :
    read_first_line "" = Except.error "the file is empty" ∧
    (read_first_line c = Except.error "the file is empty" ↔
      ∀ l ∈ pyLines c, pyStripList l = [] ∨ listPrefixOf ['#', '!'] (pyStripList l) = true) ∧
    (∀ (pre post : List (List Char)) (l : List Char),
      pyLines c = pre ++ l :: post →
      (∀ l2 ∈ pre, pyStripList l2 = [] ∨ listPrefixOf ['#', '!'] (pyStripList l2) = true) →
      pyStripList l ≠ [] → listPrefixOf ['#', '!'] (pyStripList l) = false →
      read_first_line c = Except.ok (String.mk (pyStripList l))) := by
  refine ⟨rfl, rflc_error_iff (pyLines c), ?_⟩
  intro pre post l heq hall h1 h2
  unfold read_first_line
  rw [heq]
  exact rflc_first_good pre post l hall h1 h2

theorem c10_blank_or_shebang_counts_as_empty_witness :
    read_first_line " \n#!/bin/sh\n # echo hi \nrest" = Except.ok "# echo hi" ∧
    read_first_line "\n \n#!x" = Except.error "the file is empty" :=
  ⟨(c10_blank_or_shebang_counts_as_empty " \n#!/bin/sh\n # echo hi \nrest").2.2
      [" ".data, "#!/bin/sh".data] ["rest".data] " # echo hi ".data
      (by decide) (by decide) (by decide) (by decide),
    (c10_blank_or_shebang_counts_as_empty "\n \n#!x").2.1.mpr (by decide)⟩

/-- Claim C5: if any file enumerated by `list()` is unreadable or reads as
empty, the whole listing fails with an error and not a single table line —
header included — is printed. -/
theorem c5_list_failure_prints_nothing (sys home dir ext : String) (fs : FS) (e : FileEntry)
    (hWF : fs.WF)
    (hdir : S.config_path home sys = Except.ok dir)
    (hext : S.file_ext sys = Except.ok ext)
    (he : e ∈ fs.files)
    (hin : inDirWithExt dir ext e.path = true)
    (hbad : e.readable = false ∨ read_first_line e.contents = Except.error "the file is empty") :
    ∃ msg, list_items sys home fs = Except.error msg ∧
      printed_lines (list_items sys home fs) = [] := by
  have hkey := ch_ok_cases (show S.ch sys _ _ _ = Except.ok dir from hdir)
  obtain ⟨cpre, hcpre⟩ : ∃ cp, S.comment_pre sys = Except.ok cp := by
    rcases hkey with hk | hk | hk
    exacts [⟨_, ch_eval_l hk _ _ _⟩, ⟨_, ch_eval_w hk _ _ _⟩, ⟨_, ch_eval_m hk _ _ _⟩]
  have hmem : e ∈ fs.files.filter (fun x => inDirWithExt dir ext x.path) :=
    List.mem_filter.mpr ⟨he, by simp [hin]⟩
  have hread := readFile_of_WF hWF he
  have hf : ∃ m, (fun x : FileEntry => do
      let c ← readFile fs x.path
      let l ← read_first_line c
      Except.ok (pyStrip (dropPre cpre l))) e = Except.error m := by
    rcases hbad with hb | hb
    · refine ⟨"cannot read " ++ e.path, ?_⟩
      have hrd : readFile fs e.path = Except.error ("cannot read " ++ e.path) := by
        rw [hread, if_neg (by simp [hb])]
      simp [hrd, Bind.bind, Except.bind]
    · cases hr : e.readable with
      | false =>
        refine ⟨"cannot read " ++ e.path, ?_⟩
        have hrd : readFile fs e.path = Except.error ("cannot read " ++ e.path) := by
          rw [hread, if_neg (by simp [hr])]
        simp [hrd, Bind.bind, Except.bind]
      | true =>
        refine ⟨"the file is empty", ?_⟩
        have hrd : readFile fs e.path = Except.ok e.contents := by
          rw [hread, if_pos (by simp [hr])]
        simp [hrd, hb, Bind.bind, Except.bind]
  obtain ⟨m, hm⟩ := hf
  obtain ⟨m2, hm2⟩ := mapExcept_error_of_mem
    (fun x : FileEntry => do
      let c ← readFile fs x.path
      let l ← read_first_line c
      Except.ok (pyStrip (dropPre cpre l)))
    (fs.files.filter (fun x => inDirWithExt dir ext x.path)) e m hmem hm
  have hli : list_items sys home fs = Except.error m2 := by
    simp only [Bind.bind, Except.bind] at hm2
    simp only [list_items, hdir, hext, hcpre, Bind.bind, Except.bind]
    rw [hm2]
  exact ⟨m2, hli, by rw [hli]; rfl⟩

theorem c5_list_failure_prints_nothing_witness :
    ∃ msg, list_items "Linux" "/home/u"
        ⟨[⟨"/home/u/.config/autostart/a.desktop", "", true⟩]⟩ = Except.error msg ∧
      printed_lines (list_items "Linux" "/home/u"
        ⟨[⟨"/home/u/.config/autostart/a.desktop", "", true⟩]⟩) = [] :=
  c5_list_failure_prints_nothing "Linux" "/home/u" "/home/u/.config/autostart" ".desktop"
    ⟨[⟨"/home/u/.config/autostart/a.desktop", "", true⟩]⟩
    ⟨"/home/u/.config/autostart/a.desktop", "", true⟩
    (by simp [FS.WF]) rfl rfl (by simp) (by decide) (Or.inr rfl)

theorem probePath_succ_formula (dir name ext : String)
    (hdot : containsChar '.' name.data = false) (i : Nat) (hi : 0 < i) :
    probePath dir name ext i = dir ++ "/" ++ name ++ Nat.repr i ++ ext := by
  have hnd : containsChar '.' (name ++ Nat.repr i).data = false := by
    rw [append_data, containsChar_append, hdot, repr_no_dot]
    rfl
  unfold probePath
  rw [if_neg (by omega), configFilePath, withSuffix_of_no_dot _ _ hnd,
    ← String.append_assoc, ← String.append_assoc]

theorem probePath_zero_formula (dir name ext : String)
    (hdot : containsChar '.' name.data = false) :
    probePath dir name ext 0 = dir ++ "/" ++ name ++ ext := by
  unfold probePath
  rw [if_pos rfl, configFilePath, withSuffix_of_no_dot _ _ hdot, ← String.append_assoc]

theorem base_ne_one {dir name ext : String} :
    dir ++ "/" ++ name ++ ext ≠ dir ++ "/" ++ name ++ "1" ++ ext := by
  intro hh
  have hlen := congrArg (fun s : String => s.data.length) hh
  have h1 : ("1".data).length = 1 := rfl
  simp only [append_data, List.length_append, h1] at hlen
  omega

/-- Claim C4 counterexample: the claim says add chooses the first non-existing
path of the sequence `<dir>/<name><ext>`, `<dir>/<name>1<ext>`, ... With first
token `a.sh` and only `a.desktop` present, the claimed first candidate
`<dir>/a.sh.desktop` does NOT exist, yet the code fails with `TooManyItems`:
`with_suffix` maps `a.sh` and every `a.sh<i>` to the same existing
`a.desktop`. -/
theorem c4_counterexample :
    add_item "Linux" "/home/u"
        ⟨[⟨"/home/u/.config/autostart/a.desktop", "# a.sh x", true⟩]⟩
        ⟨"a.sh x", none, none⟩ =
      Except.error "TOO MANY ITEMS OF SAME NAME!" ∧
    (⟨[⟨"/home/u/.config/autostart/a.desktop", "# a.sh x", true⟩]⟩ : FS).existsPath
        "/home/u/.config/autostart/a.sh.desktop" = false := by
  set_option maxRecDepth 1000000 in
  exact ⟨rfl, rfl⟩

/-- Claim C4 amended: for a command whose first token contains no dot, `add`
behaves exactly as claimed: the probed sequence is `<dir>/<name><ext>`,
`<dir>/<name>1<ext>`, ... (concatenation), bounded by 1000 probes in total;
the chosen path never exists beforehand (no overwrite); the first free
candidate is chosen; exhausting all 1000 probes fails the add with
`TooManyItems` and returns no filesystem (nothing written); and two successive
adds of the same first token produce the files for ids `name` and `name1`.
For first tokens with a dot-suffix, `with_suffix` collapses the candidates and
the claim fails (see the counterexample). -/
theorem c4_add_collision_probing (sys home dir ext cmd name body : String)
    (fs : FS) (o e : Option String)
    (hdir : S.config_path home sys = Except.ok dir)
    (hext : S.file_ext sys = Except.ok ext)
    (hname : splitFirst cmd = some name)
    (hdot : containsChar '.' name.data = false)
    (hfc : format_config sys cmd (some name) o e = Except.ok body) :
    (∀ i, 0 < i → probePath dir name ext i = dir ++ "/" ++ name ++ Nat.repr i ++ ext) ∧
    probePath dir name ext 0 = dir ++ "/" ++ name ++ ext ∧
    (∀ p, find_writable_path fs dir name ext = Except.ok p → fs.existsPath p = false) ∧
    (∀ k, k < 1000 → fs.existsPath (probePath dir name ext k) = false →
      (∀ j, j < k → fs.existsPath (probePath dir name ext j) = true) →
      find_writable_path fs dir name ext = Except.ok (probePath dir name ext k)) ∧
    ((∀ i, i < 1000 → fs.existsPath (probePath dir name ext i) = true) →
      add_item sys home fs ⟨cmd, o, e⟩ = Except.error "TOO MANY ITEMS OF SAME NAME!") ∧
    (fs.existsPath (dir ++ "/" ++ name ++ ext) = false →
      fs.existsPath (dir ++ "/" ++ name ++ "1" ++ ext) = false →
      add_item sys home fs ⟨cmd, o, e⟩ =
        Except.ok (⟨⟨dir ++ "/" ++ name ++ ext, body, true⟩ :: fs.files⟩,
          dir ++ "/" ++ name ++ ext) ∧
      add_item sys home ⟨⟨dir ++ "/" ++ name ++ ext, body, true⟩ :: fs.files⟩ ⟨cmd, o, e⟩ =
        Except.ok (⟨⟨dir ++ "/" ++ name ++ "1" ++ ext, body, true⟩ ::
            ⟨dir ++ "/" ++ name ++ ext, body, true⟩ :: fs.files⟩,
          dir ++ "/" ++ name ++ "1" ++ ext)) := by
  have hsucc := probePath_succ_formula dir name ext hdot
  have hzero := probePath_zero_formula dir name ext hdot
  refine ⟨hsucc, hzero, ?_, ?_, ?_, ?_⟩
  · intro p hp
    exact probeFrom_ok_not_exists fs dir name ext 1000 0 p hp
  · intro k hk hfree hprev
    have := probeFrom_first fs dir name ext 1000 0 k hk (by simpa using hfree)
      (fun j hj => by simpa using hprev j hj)
    simpa using this
  · intro hall
    have hfind : find_writable_path fs dir name ext =
        Except.error "TOO MANY ITEMS OF SAME NAME!" :=
      probeFrom_error_of_all fs dir name ext 1000 0 (fun k hk => by simpa using hall k hk)
    simp [add_item, hname, hdir, hext, hfind, Bind.bind, Except.bind]
  · intro hbase hone
    have hfind1 : find_writable_path fs dir name ext =
        Except.ok (probePath dir name ext 0) := by
      refine probeFrom_first fs dir name ext 1000 0 0 (by omega) ?_
        (fun j hj => absurd hj (by omega))
      simp only [Nat.add_zero]
      rw [hzero]
      exact hbase
    rw [hzero] at hfind1
    constructor
    · simp [add_item, hname, hdir, hext, hfind1, hfc, Bind.bind, Except.bind]
    · set fs1 : FS := ⟨⟨dir ++ "/" ++ name ++ ext, body, true⟩ :: fs.files⟩ with hfs1
      have hrepr1 : Nat.repr 1 = "1" := rfl
      have hp1 : probePath dir name ext 1 = dir ++ "/" ++ name ++ "1" ++ ext := by
        rw [hsucc 1 (by omega), hrepr1]
      have hex0 : fs1.existsPath (probePath dir name ext 0) = true := by
        rw [hzero]
        simp [FS.existsPath, hfs1]
      have hex1 : fs1.existsPath (probePath dir name ext 1) = false := by
        rw [hp1]
        simp only [FS.existsPath, hfs1, List.any_cons]
        rw [Bool.or_eq_false_iff]
        constructor
        · simp [base_ne_one]
        · simpa [FS.existsPath] using hone
      have hfind2 : find_writable_path fs1 dir name ext =
          Except.ok (probePath dir name ext 1) := by
        refine probeFrom_first fs1 dir name ext 1000 0 1 (by omega) (by simpa using hex1) ?_
        intro j hj
        have hj0 : j = 0 := by omega
        subst hj0
        simpa using hex0
      rw [hp1] at hfind2
      simp [add_item, hname, hdir, hext, hfind2, hfc, Bind.bind, Except.bind, hfs1]

theorem c4_add_collision_probing_witness :
    add_item "Linux" "/home/u" ⟨[]⟩ ⟨"a b", none, none⟩ =
      Except.ok (⟨[⟨"/home/u/.config/autostart/a.desktop",
          LINUX_BASE_STRING "# a b" "a" "a b", true⟩]⟩,
        "/home/u/.config/autostart/a.desktop") ∧
    add_item "Linux" "/home/u"
        ⟨[⟨"/home/u/.config/autostart/a.desktop", LINUX_BASE_STRING "# a b" "a" "a b", true⟩]⟩
        ⟨"a b", none, none⟩ =
      Except.ok (⟨[⟨"/home/u/.config/autostart/a1.desktop",
            LINUX_BASE_STRING "# a b" "a" "a b", true⟩,
          ⟨"/home/u/.config/autostart/a.desktop", LINUX_BASE_STRING "# a b" "a" "a b", true⟩]⟩,
        "/home/u/.config/autostart/a1.desktop") :=
  (c4_add_collision_probing "Linux" "/home/u" "/home/u/.config/autostart" ".desktop"
      "a b" "a" (LINUX_BASE_STRING "# a b" "a" "a b") ⟨[]⟩ none none
      rfl rfl rfl (by decide) rfl).2.2.2.2.2 (by decide) (by decide)

theorem containsChar_take_false {c : Char} {l : List Char}
    (h : containsChar c l = false) (n : Nat) : containsChar c (l.take n) = false := by
  rw [containsChar_eq_false_iff] at h ⊢
  intro hm
  exact h (List.take_subset n l hm)

theorem withSuffix_data (nm ext : String) :
    (withSuffix nm ext).data =
      nm.data.take (nm.data.length - pySuffixLen nm.data) ++ ext.data := rfl

theorem probePath_shape (dir name ext : String) (k : Nat) :
    ∃ nm, probePath dir name ext k = dir ++ "/" ++ withSuffix nm ext ∧
      (nm = name ∨ nm = name ++ Nat.repr k) := by
  unfold probePath configFilePath
  by_cases hk : k = 0
  · exact ⟨name, by rw [if_pos hk], Or.inl rfl⟩
  · exact ⟨name ++ Nat.repr k, by rw [if_neg hk], Or.inr rfl⟩

theorem inDirWithExt_of_shape (dir ext w : String)
    (hw : containsChar '/' w.data = false)
    (hsuf : ∃ k, w.data = k ++ ext.data) :
    inDirWithExt dir ext (dir ++ "/" ++ w) = true := by
  obtain ⟨k, hk⟩ := hsuf
  have hd : (dir ++ "/" ++ w).data = (dir.data ++ ['/']) ++ w.data := by
    rw [append_data, append_data, List.append_assoc]
  unfold inDirWithExt
  rw [hd]
  have h1 : listPrefixOf (dir.data ++ ['/']) ((dir.data ++ ['/']) ++ w.data) = true :=
    listPrefixOf_append _ _
  have h2 : listPrefixOf ext.data.reverse (((dir.data ++ ['/']) ++ w.data).reverse) = true := by
    rw [List.reverse_append, hk, List.reverse_append, List.append_assoc]
    exact listPrefixOf_append _ _
  have h3 : ((dir.data ++ ['/']) ++ w.data).drop (dir.data.length + 1) = w.data := by
    have hlen : (dir.data ++ ['/']).length = dir.data.length + 1 := by simp
    rw [← hlen, List.drop_left]
  rw [h1, h2, h3, hw]
  rfl

theorem dropPre_exact (pre s : String) : dropPre pre (pre ++ s) = s := by
  unfold dropPre
  rw [append_data, if_pos (listPrefixOf_append _ _), List.drop_left, mk_data]

theorem hash_space_data (cmd : String) : ("# " ++ cmd).data = '#' :: ' ' :: cmd.data := by
  rw [append_data]
  rfl

theorem pyStripList_comment {cmd : String} (hstrip : pyStrip cmd = cmd) (hne : cmd ≠ "") :
    pyStripList ('#' :: ' ' :: cmd.data) = '#' :: ' ' :: cmd.data := by
  obtain ⟨c, cs, hrev, hcws⟩ := last_not_ws hstrip hne
  unfold pyStripList
  have hdw : ('#' :: ' ' :: cmd.data).dropWhile Char.isWhitespace = '#' :: ' ' :: cmd.data := by
    rw [List.dropWhile_cons, if_neg (by decide)]
  rw [hdw]
  have hrv : ('#' :: ' ' :: cmd.data).reverse = cmd.data.reverse ++ [' ', '#'] := by simp
  rw [hrv, hrev, List.cons_append, List.dropWhile_cons, if_neg (by simp [hcws])]
  have hback : (c :: (cs ++ [' ', '#'])).reverse = '#' :: ' ' :: (c :: cs).reverse := by simp
  rw [hback, ← hrev]
  simp

theorem newline_not_in_comment {cmd : String} (hnl : containsChar '\n' cmd.data = false) :
    '\n' ∉ ('#' :: ' ' :: cmd.data) := by
  intro hm
  rcases List.mem_cons.mp hm with h | hm2
  · cases h
  rcases List.mem_cons.mp hm2 with h | hm3
  · cases h
  · exact (containsChar_eq_false_iff _ _).mp hnl hm3

theorem read_first_line_comment {cmd : String} (restb : List Char)
    (hnl : containsChar '\n' cmd.data = false)
    (hstrip : pyStrip cmd = cmd) (hne : cmd ≠ "") :
    read_first_line_core (splitOnChar '\n' (('#' :: ' ' :: cmd.data) ++ '\n' :: restb)) =
      Except.ok ("# " ++ cmd) := by
  rw [splitOnChar, splitOnCharAux_break '\n' (newline_not_in_comment hnl)]
  simp only [List.reverse_nil, List.nil_append]
  have hsl := pyStripList_comment hstrip hne
  unfold read_first_line_core
  rw [if_pos ?_]
  · rw [hsl, ← hash_space_data, mk_data]
  · constructor
    · rw [hsl]
      simp
    · rw [hsl]
      rfl

theorem linux_body_split (cmd name : String) :
    ∃ restb, (LINUX_BASE_STRING ("# " ++ cmd) name cmd).data =
      ('#' :: ' ' :: cmd.data) ++ '\n' :: restb := by
  refine ⟨("[Desktop Entry]\nType=Application\nVersion=1.0\nName=" ++ name ++ "\nComment=" ++
      name ++ " startup script\nExec=" ++ cmd ++
      "\nStartupNotify=false\nTerminal=false\n").data, ?_⟩
  have h2 : ("\n[Desktop Entry]\nType=Application\nVersion=1.0\nName=" : String).data =
      '\n' :: ("[Desktop Entry]\nType=Application\nVersion=1.0\nName=" : String).data := rfl
  simp only [LINUX_BASE_STRING, append_data, hash_space_data, h2, List.append_assoc,
    List.cons_append, List.nil_append]

theorem windows_body_split (cmd w1 w2 : String) :
    ∃ restb, (WINDOWS_BASE_STRING ("# " ++ cmd) cmd w1 w2).data =
      ('#' :: ' ' :: cmd.data) ++ '\n' :: restb := by
  refine ⟨("Start-Process \"cmd.exe\" -ArgumentList \"/c " ++ cmd ++
      "\" -WindowStyle Hidden " ++ w1 ++ " " ++ w2 ++ "\n").data, ?_⟩
  have h2 : ("\nStart-Process \"cmd.exe\" -ArgumentList \"/c " : String).data =
      '\n' :: ("Start-Process \"cmd.exe\" -ArgumentList \"/c " : String).data := rfl
  simp only [WINDOWS_BASE_STRING, append_data, hash_space_data, h2, List.append_assoc,
    List.cons_append, List.nil_append]

theorem format_config_windows (cmd name : String) (o e : Option String) :
    format_config "Windows" cmd (some name) o e =
      Except.ok (WINDOWS_BASE_STRING ("# " ++ cmd) cmd
        (optFlag "-RedirectStandardOutput " o) (optFlag "-RedirectStandardError " e)) := rfl

theorem list_after_add (sys home dir ext cmd : String) (fs : FS) (p body : String)
    (restb : List Char)
    (hdir : S.config_path home sys = Except.ok dir)
    (hext : S.file_ext sys = Except.ok ext)
    (hcpre : S.comment_pre sys = Except.ok "# ")
    (hWF : fs.WF)
    (hgood : ∀ x ∈ fs.files, x.readable = true ∧ ∃ s, read_first_line x.contents = Except.ok s)
    (hnp : fs.existsPath p = false)
    (hbody : body.data = ('#' :: ' ' :: cmd.data) ++ '\n' :: restb)
    (hin : inDirWithExt dir ext p = true)
    (hnl : containsChar '\n' cmd.data = false)
    (hstrip : pyStrip cmd = cmd) (hne : cmd ≠ "") :
    ∃ rest, list_items sys home ⟨⟨p, body, true⟩ :: fs.files⟩ =
      Except.ok (LIST_BASE_STRING "id" "command" ::
        LIST_BASE_STRING (dropSuf ext (lastSegment p)) cmd :: rest) := by
  have hne_paths : ∀ x ∈ fs.files, x.path ≠ p := (existsPath_false_iff fs p).mp hnp
  have hrfl_body : read_first_line body = Except.ok ("# " ++ cmd) := by
    unfold read_first_line pyLines
    rw [hbody]
    exact read_first_line_comment restb hnl hstrip hne
  have hfil : ((⟨p, body, true⟩ : FileEntry) :: fs.files).filter
      (fun x => inDirWithExt dir ext x.path) =
      (⟨p, body, true⟩ : FileEntry) :: fs.files.filter (fun x => inDirWithExt dir ext x.path) := by
    simp [List.filter_cons, hin]
  have hrd_new : readFile ⟨(⟨p, body, true⟩ : FileEntry) :: fs.files⟩ p = Except.ok body := by
    simp [readFile, List.find?]
  have hrd_old : ∀ x ∈ fs.files,
      readFile ⟨(⟨p, body, true⟩ : FileEntry) :: fs.files⟩ x.path = readFile fs x.path := by
    intro x hx
    have hb : (((⟨p, body, true⟩ : FileEntry)).path == x.path) = false := by
      have := hne_paths x hx
      simpa using fun h => this h.symm
    simp [readFile, List.find?, hb]
  have hf_old : ∀ x ∈ fs.files.filter (fun y => inDirWithExt dir ext y.path),
      ∃ b, (fun x : FileEntry => do
        let c ← readFile ⟨(⟨p, body, true⟩ : FileEntry) :: fs.files⟩ x.path
        let l ← read_first_line c
        Except.ok (pyStrip (dropPre "# " l))) x = Except.ok b := by
    intro x hx
    have hxmem : x ∈ fs.files := List.mem_of_mem_filter hx
    obtain ⟨hr, s, hs⟩ := hgood x hxmem
    refine ⟨pyStrip (dropPre "# " s), ?_⟩
    show (do
      let c ← readFile ⟨(⟨p, body, true⟩ : FileEntry) :: fs.files⟩ x.path
      let l ← read_first_line c
      Except.ok (pyStrip (dropPre "# " l)) : Except String String) = _
    rw [hrd_old x hxmem, readFile_of_WF hWF hxmem, if_pos (by simp [hr])]
    simp [Bind.bind, Except.bind, hs]
  obtain ⟨bs, hbs⟩ := mapExcept_ok_of_forall _ _ hf_old
  have hmap : mapExcept (fun x : FileEntry => do
      let c ← readFile ⟨(⟨p, body, true⟩ : FileEntry) :: fs.files⟩ x.path
      let l ← read_first_line c
      Except.ok (pyStrip (dropPre "# " l)))
      ((⟨p, body, true⟩ : FileEntry) :: fs.files.filter (fun x => inDirWithExt dir ext x.path)) =
      Except.ok (cmd :: bs) := by
    simp only [Bind.bind, Except.bind] at hbs
    simp only [mapExcept, Bind.bind, Except.bind, hrd_new, hrfl_body, dropPre_exact,
      hstrip, hbs]
  refine ⟨((fs.files.filter (fun x => inDirWithExt dir ext x.path)).zip bs).map
      (fun pr => LIST_BASE_STRING (dropSuf ext (lastSegment pr.1.path)) pr.2), ?_⟩
  simp only [Bind.bind, Except.bind] at hmap
  simp only [list_items, hdir, hext, hcpre, Bind.bind, Except.bind, hfil, hmap,
    List.zip_cons_cons, List.map_cons]

/-- Claim C3: the claim quantifies over every valid one-line command on every
supported platform. The round trip holds on the platforms whose profile
lookups succeed (Linux and Windows; on macOS `add` itself fails, claim C1)
for commands with no surrounding whitespace — but NOT exactly for commands
with leading or trailing whitespace, which `list` strips (see the
counterexample), so the claim as stated is false. This amended theorem: on
Linux or Windows, for a command with no newline and equal to its own strip,
whose first token contains no path separator, if `add(c)` succeeds then
`list()` succeeds and its first data row carries exactly `c` as the recovered
command. -/
theorem c3_roundtrip (sys home cmd : String) (fs fs1 : FS) (p : String) (o e : Option String)
    (hsys : sys = "Linux" ∨ sys = "Windows")
    (hWF : fs.WF)
    (hgood : ∀ x ∈ fs.files, x.readable = true ∧ ∃ s, read_first_line x.contents = Except.ok s)
    (hnl : containsChar '\n' cmd.data = false)
    (hstrip : pyStrip cmd = cmd)
    (hne : cmd ≠ "")
    (hslash : ∀ t, splitFirst cmd = some t → containsChar '/' t.data = false)
    (hadd : add_item sys home fs ⟨cmd, o, e⟩ = Except.ok (fs1, p)) :
    ∃ ext rest, S.file_ext sys = Except.ok ext ∧
      list_items sys home fs1 =
        Except.ok (LIST_BASE_STRING "id" "command" ::
          LIST_BASE_STRING (dropSuf ext (lastSegment p)) cmd :: rest) := by
  rcases hsys with rfl | rfl
  · have hcp : S.config_path home "Linux" = Except.ok (home ++ "/.config/autostart") := rfl
    have hfe : S.file_ext "Linux" = Except.ok ".desktop" := rfl
    have hcpre : S.comment_pre "Linux" = Except.ok "# " := rfl
    cases hsp : splitFirst cmd with
    | none =>
      unfold add_item at hadd
      simp [hsp, Bind.bind, Except.bind] at hadd
    | some name =>
      unfold add_item at hadd
      simp only [hsp, hcp, hfe, Bind.bind, Except.bind] at hadd
      cases hfw : find_writable_path fs (home ++ "/.config/autostart") name ".desktop" with
      | error m => simp [hfw] at hadd
      | ok p0 =>
        simp only [hfw, format_config_linux, Bind.bind, Except.bind,
          Except.ok.injEq, Prod.mk.injEq] at hadd
        obtain ⟨h1, h2⟩ := hadd
        subst h1
        subst h2
        have hnp : fs.existsPath p0 = false :=
          probeFrom_ok_not_exists fs (home ++ "/.config/autostart") name ".desktop" 1000 0 p0 hfw
        obtain ⟨k, hk, hpshape⟩ :=
          probeFrom_ok_shape fs (home ++ "/.config/autostart") name ".desktop" 1000 0 p0 hfw
        simp only [Nat.zero_add] at hpshape
        obtain ⟨nm, hnm, hnmor⟩ := probePath_shape (home ++ "/.config/autostart") name ".desktop" k
        have hnoslash : containsChar '/' nm.data = false := by
          rcases hnmor with rfl | rfl
          · exact hslash nm hsp
          · rw [append_data, containsChar_append, hslash name hsp, repr_no_slash]
            rfl
        have hw : containsChar '/' (withSuffix nm ".desktop").data = false := by
          rw [withSuffix_data, containsChar_append, containsChar_take_false hnoslash]
          decide
        have hin : inDirWithExt (home ++ "/.config/autostart") ".desktop" p0 = true := by
          rw [hpshape, hnm]
          exact inDirWithExt_of_shape _ _ _ hw ⟨_, withSuffix_data nm ".desktop"⟩
        obtain ⟨restb, hbsplit⟩ := linux_body_split cmd name
        obtain ⟨rest, hrest⟩ := list_after_add "Linux" home (home ++ "/.config/autostart")
          ".desktop" cmd fs p0 (LINUX_BASE_STRING ("# " ++ cmd) name cmd) restb
          hcp hfe hcpre hWF hgood hnp hbsplit hin hnl hstrip hne
        exact ⟨".desktop", rest, rfl, hrest⟩
  · have hcp : S.config_path home "Windows" =
        Except.ok (home ++ "/AppData/Roaming/Microsoft/Windows/Start Menu/Programs/Startup") := rfl
    have hfe : S.file_ext "Windows" = Except.ok ".ps1" := rfl
    have hcpre : S.comment_pre "Windows" = Except.ok "# " := rfl
    cases hsp : splitFirst cmd with
    | none =>
      unfold add_item at hadd
      simp [hsp, Bind.bind, Except.bind] at hadd
    | some name =>
      unfold add_item at hadd
      simp only [hsp, hcp, hfe, Bind.bind, Except.bind] at hadd
      cases hfw : find_writable_path fs
          (home ++ "/AppData/Roaming/Microsoft/Windows/Start Menu/Programs/Startup")
          name ".ps1" with
      | error m => simp [hfw] at hadd
      | ok p0 =>
        simp only [hfw, format_config_windows, Bind.bind, Except.bind,
          Except.ok.injEq, Prod.mk.injEq] at hadd
        obtain ⟨h1, h2⟩ := hadd
        subst h1
        subst h2
        have hnp : fs.existsPath p0 = false :=
          probeFrom_ok_not_exists fs
            (home ++ "/AppData/Roaming/Microsoft/Windows/Start Menu/Programs/Startup")
            name ".ps1" 1000 0 p0 hfw
        obtain ⟨k, hk, hpshape⟩ :=
          probeFrom_ok_shape fs
            (home ++ "/AppData/Roaming/Microsoft/Windows/Start Menu/Programs/Startup")
            name ".ps1" 1000 0 p0 hfw
        simp only [Nat.zero_add] at hpshape
        obtain ⟨nm, hnm, hnmor⟩ := probePath_shape
          (home ++ "/AppData/Roaming/Microsoft/Windows/Start Menu/Programs/Startup") name ".ps1" k
        have hnoslash : containsChar '/' nm.data = false := by
          rcases hnmor with rfl | rfl
          · exact hslash nm hsp
          · rw [append_data, containsChar_append, hslash name hsp, repr_no_slash]
            rfl
        have hw : containsChar '/' (withSuffix nm ".ps1").data = false := by
          rw [withSuffix_data, containsChar_append, containsChar_take_false hnoslash]
          decide
        have hin : inDirWithExt
            (home ++ "/AppData/Roaming/Microsoft/Windows/Start Menu/Programs/Startup")
            ".ps1" p0 = true := by
          rw [hpshape, hnm]
          exact inDirWithExt_of_shape _ _ _ hw ⟨_, withSuffix_data nm ".ps1"⟩
        obtain ⟨restb, hbsplit⟩ := windows_body_split cmd
          (optFlag "-RedirectStandardOutput " o) (optFlag "-RedirectStandardError " e)
        obtain ⟨rest, hrest⟩ := list_after_add "Windows" home
          (home ++ "/AppData/Roaming/Microsoft/Windows/Start Menu/Programs/Startup")
          ".ps1" cmd fs p0
          (WINDOWS_BASE_STRING ("# " ++ cmd) cmd
            (optFlag "-RedirectStandardOutput " o) (optFlag "-RedirectStandardError " e)) restb
          hcp hfe hcpre hWF hgood hnp hbsplit hin hnl hstrip hne
        exact ⟨".ps1", rest, rfl, hrest⟩

/-- Claim C3 counterexample: `"hello "` (trailing blank) is a valid one-line
command — `add` accepts it and derives name `hello` — yet the recovered
command after `add` then `list` is `"hello"`, not `"hello "`: `list` strips
surrounding whitespace, so the round trip is not exact for every valid
command. -/
theorem c3_counterexample :
    (add_item "Linux" "/home/u" ⟨[]⟩ ⟨"hello ", none, none⟩).map
        (fun r => list_items "Linux" "/home/u" r.1) =
      Except.ok (Except.ok
        [LIST_BASE_STRING "id" "command", LIST_BASE_STRING "hello" "hello"]) ∧
    ("hello" : String) ≠ "hello " :=
  ⟨rfl, by decide⟩

theorem c3_roundtrip_witness :
    ∃ ext rest, S.file_ext "Linux" = Except.ok ext ∧
      list_items "Linux" "/home/u"
          ⟨[⟨"/home/u/.config/autostart/hello.desktop",
            LINUX_BASE_STRING "# hello world" "hello" "hello world", true⟩]⟩ =
        Except.ok (LIST_BASE_STRING "id" "command" ::
          LIST_BASE_STRING
            (dropSuf ext (lastSegment "/home/u/.config/autostart/hello.desktop"))
            "hello world" :: rest) :=
  c3_roundtrip "Linux" "/home/u" "hello world" ⟨[]⟩
    ⟨[⟨"/home/u/.config/autostart/hello.desktop",
      LINUX_BASE_STRING "# hello world" "hello" "hello world", true⟩]⟩
    "/home/u/.config/autostart/hello.desktop" none none
    (Or.inl rfl) (by simp [FS.WF]) (by simp) (by decide) (by decide) (by decide)
    (fun t ht => by
      have h0 : splitFirst "hello world" = some "hello" := rfl
      rw [h0] at ht
      injection ht with ht2
      rw [← ht2]
      decide)
    rfl

end Usp
